import Mathlib

/-!
Shallow embedding of the fs-mcp server (jbr/fs-mcp).

The embedding covers the parts of the program the verified claims are
about:

* `FsMcp.Session` — the generic session store of `src/session.rs`
  (`SessionStore<T>`): an in-memory map from session id to
  `SessionEntry<T>`, mirrored to disk one file per session id
  (`storage_dir/{session_id}.json`, see `session_file_path`).  Wall-clock
  reads (`SystemTime::now()`) are modelled by an explicit `now : Nat`
  argument; disk I/O is modelled as an explicit map from session id to
  the entry stored in that session's file (I/O errors and corrupt files
  are not modelled — every stored file is well formed).
* `FsMcp.Shared` — the shared-context layer of `src/state.rs`
  (`SharedContextData`, `FsTools::resolve_path`, `FsTools::get_context`,
  `FsTools::set_working_directory`) together with the legacy resolver of
  `src/tools.rs`, and the `set_working_directory` tool of
  `src/tools/set_working_directory.rs`.  The store used by `state.rs` is
  `mcplease::session::SessionStore`, which is not vendored in the
  repository sources; its `update`/`get_or_create` operations are
  modelled from the spec (see the doc comments below).
* `FsMcp.Wire` — the wire layer of `src/main.rs`: the JSON value model,
  the serde-derived decoding of `McpMessage` / `McpRequest` /
  `RequestType`, the dispatch of decoded requests into responses, and
  the line-oriented transport loop; plus the `write` tool of
  `src/tools/write.rs`, the legacy `write_file` tool of
  `src/tools/write_file.rs` and the `read` tool of `src/tools/read.rs`.
  Text parsing of a raw line (the `serde_json` text parser) is external
  to the repository and is abstracted: an input line either is not valid
  JSON at all or carries a parsed JSON value.
-/

namespace FsMcp

/-- A single-quote character (used when building messages that quote a
session id, as `src/tools.rs` does with `'{}'`). -/
def squote : String := String.mk [Char.ofNat 39]

/-- `needle` is a prefix of `haystack` (over character lists). -/
def isPrefixList : List Char → List Char → Bool
  | [], _ => true
  | _ :: _, [] => false
  | a :: as, b :: bs => a = b && isPrefixList as bs

/-- `needle` occurs somewhere in `haystack` (over character lists). -/
def containsList (needle : List Char) : List Char → Bool
  | [] => isPrefixList needle []
  | c :: rest => isPrefixList needle (c :: rest) || containsList needle rest

/-- `needle` occurs as a substring of `haystack` (executable and
kernel-evaluable). -/
def containsStr (haystack needle : String) : Bool :=
  containsList needle.data haystack.data

/-- `str::starts_with` of Rust (kernel-evaluable counterpart of
`String.startsWith`). -/
def startsWithStr (s p : String) : Bool := isPrefixList p.data s.data

/-- `str::ends_with` of Rust (kernel-evaluable counterpart of
`String.endsWith`). -/
def endsWithStr (s p : String) : Bool := isPrefixList p.data.reverse s.data.reverse

/-- Drop the first `n` characters of a string (kernel-evaluable
counterpart of `String.drop`). -/
def dropStr (s : String) (n : Nat) : String := String.mk (s.data.drop n)

theorem isPrefixList_self_append (n m : List Char) :
    isPrefixList n (n ++ m) = true := by
  induction n with
  | nil => simp [isPrefixList]
  | cons a as ih => simp [isPrefixList, ih]

theorem containsList_append_left (n ys : List Char) (xs : List Char)
    (h : containsList n ys = true) : containsList n (xs ++ ys) = true := by
  induction xs with
  | nil => simpa using h
  | cons c cs ih => simp [containsList, ih]

theorem containsList_here (n rest : List Char) :
    containsList n (n ++ rest) = true := by
  cases n with
  | nil =>
      cases rest with
      | nil => simp [containsList, isPrefixList]
      | cons c cs => simp [containsList, isPrefixList]
  | cons a as =>
      simp [containsList, isPrefixList, isPrefixList_self_append]

theorem containsStr_append_right (a b n : String) (h : containsStr b n = true) :
    containsStr (a ++ b) n = true := by
  unfold containsStr at h ⊢
  rw [String.data_append]
  exact containsList_append_left _ _ _ h

theorem containsStr_mid (x y z : String) :
    containsStr (x ++ (y ++ z)) y = true := by
  unfold containsStr
  rw [String.data_append, String.data_append]
  exact containsList_append_left _ _ _ (containsList_here _ _)

/-- Association-list lookup, modelling `HashMap::get`. -/
def lookupA {E : Type} (k : String) : List (String × E) → Option E
  | [] => none
  | (k', v) :: rest => if k = k' then some v else lookupA k rest

/-- Association-list insert-or-replace, modelling `HashMap::insert` (and
in-place mutation through `HashMap::get_mut`). -/
def insertA {E : Type} (k : String) (v : E) : List (String × E) → List (String × E)
  | [] => [(k, v)]
  | (k', v') :: rest =>
      if k = k' then (k, v) :: rest else (k', v') :: insertA k v rest

theorem lookupA_insertA_self {E : Type} (k : String) (v : E) (m : List (String × E)) :
    lookupA k (insertA k v m) = some v := by
  induction m with
  | nil => simp [insertA, lookupA]
  | cons hd tl ih =>
      obtain ⟨k', v'⟩ := hd
      by_cases h : k = k'
      · simp [insertA, lookupA, h]
      · simp [insertA, lookupA, h, ih]

theorem lookupA_insertA_ne {E : Type} {k k' : String} (v : E) (m : List (String × E))
    (h : k' ≠ k) : lookupA k' (insertA k v m) = lookupA k' m := by
  induction m with
  | nil => simp [insertA, lookupA, h]
  | cons hd tl ih =>
      obtain ⟨k₀, v₀⟩ := hd
      by_cases hk : k = k₀
      · subst hk
        simp [insertA, lookupA, h]
      · by_cases hk' : k' = k₀
        · simp [insertA, lookupA, hk, hk']
        · simp [insertA, lookupA, hk, hk', ih]

namespace Session

/-- `SessionMetadata` of `src/session.rs`: creation and last-use
timestamps (`SystemTime` modelled as `Nat`). -/
structure SessionMetadata where
  created_at : Nat
  last_used : Nat
  deriving Repr, DecidableEq

/-- `SessionEntry<T>` of `src/session.rs`: the session payload plus its
metadata. -/
structure SessionEntry (T : Type) where
  data : T
  metadata : SessionMetadata
  deriving Repr, DecidableEq

/-- The state of `SessionStore<T>` of `src/session.rs`: the in-memory
`sessions` map, and the on-disk state `disk`, one entry per file
`storage_dir/{session_id}.json` (see `session_file_path`), keyed by the
session id the file is named after.  Each file holds the serialization
of exactly one `SessionEntry<T>`. -/
structure StoreState (T : Type) where
  sessions : List (String × SessionEntry T)
  disk : List (String × SessionEntry T)
  deriving Repr, DecidableEq

variable {T : Type} [Inhabited T]

/-- `SessionStore::new` over an existing storage directory, after
`load_from_disk`: every (well-formed) session file is loaded into the
in-memory map.  A missing directory loads the empty map. -/
def newStore (disk : List (String × SessionEntry T)) : StoreState T :=
  { sessions := disk, disk := disk }

/-- `SessionStore::get_or_create` of `src/session.rs` at wall-clock
time `now`: return the payload for `session_id`, creating a
`T::default()` entry with `created_at = last_used = now` if absent;
refresh `last_used` to `now` on an existing entry; in both branches
write the (single) touched entry to its session file. -/
def getOrCreate (now : Nat) (session_id : String) (s : StoreState T) :
    T × StoreState T :=
  match lookupA session_id s.sessions with
  | some entry =>
      let entry' : SessionEntry T :=
        { entry with metadata := { entry.metadata with last_used := now } }
      (entry'.data,
        { sessions := insertA session_id entry' s.sessions,
          disk := insertA session_id entry' s.disk })
  | none =>
      let entry : SessionEntry T :=
        { data := default, metadata := { created_at := now, last_used := now } }
      (entry.data,
        { sessions := insertA session_id entry s.sessions,
          disk := insertA session_id entry s.disk })

/-- `SessionStore::set` of `src/session.rs` at wall-clock time `now`:
replace the payload for `session_id`, keeping the existing
`created_at` (or using `now` when the entry is new), setting
`last_used = now`, and writing the touched entry to its session
file. -/
def set (now : Nat) (session_id : String) (data : T) (s : StoreState T) :
    StoreState T :=
  let entry : SessionEntry T :=
    { data := data,
      metadata :=
        { created_at :=
            match lookupA session_id s.sessions with
            | some e => e.metadata.created_at
            | none => now,
          last_used := now } }
  { sessions := insertA session_id entry s.sessions,
    disk := insertA session_id entry s.disk }

/-- One mutating operation of the session store (the operations the
claims range over). -/
inductive StoreOp (T : Type) where
  | getOrCreate (now : Nat) (session_id : String)
  | set (now : Nat) (session_id : String) (data : T)

/-- The wall-clock time at which an operation runs. -/
def StoreOp.now {T : Type} : StoreOp T → Nat
  | .getOrCreate n _ => n
  | .set n _ _ => n

/-- Apply one store operation (discarding `get_or_create`'s returned
payload). -/
def applyOp (op : StoreOp T) (s : StoreState T) : StoreState T :=
  match op with
  | .getOrCreate now id => (getOrCreate now id s).2
  | .set now id data => set now id data s

/-- Run a sequence of store operations in order. -/
def runOps (ops : List (StoreOp T)) (s : StoreState T) : StoreState T :=
  match ops with
  | [] => s
  | op :: rest => runOps rest (applyOp op s)

/-- The wall clock never runs backwards along a trace whose first
operation happens at time `t` or later (`SystemTime::now()` assumed
monotone). -/
def Chrono {T : Type} (t : Nat) : List (StoreOp T) → Prop
  | [] => True
  | op :: rest => t ≤ op.now ∧ Chrono op.now rest

/-- Every in-memory entry satisfies `created_at ≤ last_used ≤ t`. -/
def BoundedBy (s : StoreState T) (t : Nat) : Prop :=
  ∀ id e, lookupA id s.sessions = some e →
    e.metadata.created_at ≤ e.metadata.last_used ∧ e.metadata.last_used ≤ t

theorem boundedBy_applyOp {s : StoreState T} {t now : Nat} (op : StoreOp T)
    (hs : BoundedBy s t) (ht : t ≤ now) (hop : op.now = now) :
    BoundedBy (applyOp op s) now := by
  intro id e he
  cases op with
  | getOrCreate n sid =>
      simp only [StoreOp.now] at hop
      subst hop
      simp only [applyOp, getOrCreate] at he
      rcases hl : lookupA sid s.sessions with _ | entry
      · rw [hl] at he
        simp only at he
        by_cases hid : id = sid
        · subst hid
          rw [lookupA_insertA_self] at he
          cases he
          simp
        · rw [lookupA_insertA_ne _ _ hid] at he
          rcases hs id e he with ⟨h₁, h₂⟩
          exact ⟨h₁, le_trans h₂ ht⟩
      · rw [hl] at he
        simp only at he
        by_cases hid : id = sid
        · subst hid
          rw [lookupA_insertA_self] at he
          cases he
          rcases hs _ _ hl with ⟨h₁, h₂⟩
          exact ⟨le_trans h₁ (le_trans h₂ ht), le_refl _⟩
        · rw [lookupA_insertA_ne _ _ hid] at he
          rcases hs id e he with ⟨h₁, h₂⟩
          exact ⟨h₁, le_trans h₂ ht⟩
  | set n sid data =>
      simp only [StoreOp.now] at hop
      subst hop
      simp only [applyOp, set] at he
      by_cases hid : id = sid
      · subst hid
        rw [lookupA_insertA_self] at he
        cases he
        rcases hl : lookupA id s.sessions with _ | entry
        · simp [hl]
        · rcases hs _ _ hl with ⟨h₁, h₂⟩
          simp only [hl]
          exact ⟨le_trans h₁ (le_trans h₂ ht), le_refl _⟩
      · rw [lookupA_insertA_ne _ _ hid] at he
        rcases hs id e he with ⟨h₁, h₂⟩
        exact ⟨h₁, le_trans h₂ ht⟩

theorem boundedBy_runOps {ops : List (StoreOp T)} :
    ∀ {s : StoreState T} {t : Nat}, BoundedBy s t → Chrono t ops →
      ∃ t', BoundedBy (runOps ops s) t' := by
  induction ops with
  | nil => intro s t hs _; exact ⟨t, hs⟩
  | cons op rest ih =>
      intro s t hs hchrono
      rcases hchrono with ⟨hle, hrest⟩
      exact ih (boundedBy_applyOp op hs hle rfl) hrest

/-- Helper shared by the persistence claims: from any starting state
whose disk mirrors its in-memory map, every operation keeps the on-disk
state (one file per session id) equal to the in-memory map. -/
theorem disk_eq_sessions (ops : List (StoreOp T)) :
    ∀ s : StoreState T, s.disk = s.sessions →
      (runOps ops s).disk = (runOps ops s).sessions := by
  induction ops with
  | nil => intro s h; exact h
  | cons op rest ih =>
      intro s h
      apply ih
      cases op with
      | getOrCreate now id =>
          simp only [applyOp, getOrCreate]
          rcases hl : lookupA id s.sessions with _ | entry
      <;> simp [hl, h]
      | set now id data => simp [applyOp, set, h]

end Session

/-- `shellexpand::tilde`: a path equal to `~` becomes the home
directory; a leading `~/` is replaced by the home directory; anything
else (including `~user` forms) is returned unchanged. -/
def tilde (home : String) (s : String) : String :=
  if s = "~" then home
  else if startsWithStr s "~/" then home ++ dropStr s 1
  else s

/-- `Path::is_absolute` on Unix: the path has a root, i.e. it starts
with `/`. -/
def isAbsolutePath (s : String) : Bool := startsWithStr s "/"

/-- `Path::join` (= `PathBuf::push`) for the cases arising here: an
absolute right-hand side replaces the base; otherwise the two are
joined with a single `/` separator (none added after an empty base or a
base already ending in `/`). -/
def pathJoin (base rel : String) : String :=
  if startsWithStr rel "/" then rel
  else if base = "" then rel
  else if endsWithStr base "/" then base ++ rel
  else base ++ "/" ++ rel

namespace Shared

/-- `SharedContextData` of `src/state.rs`: the payload stored per
session — an optional working-directory context path. -/
structure SharedContextData where
  context_path : Option String
  deriving Repr, DecidableEq

instance : Inhabited SharedContextData := ⟨⟨none⟩⟩

open Session in
/-- Modelled from the spec: `mcplease::session::SessionStore::update`
(the `mcplease` crate backing `src/state.rs` is not vendored under
`src/`).  Per §4.1 of the design: apply the caller-supplied mutator to
the entry's payload in place, creating the entry first if absent (the
mutator sees the zero value), update `last_used`, and persist.  The
state is modelled with the same `StoreState` shape as the local session
store; persistence details are irrelevant to the path-resolution
claims. -/
def update (now : Nat) (session_id : String) (f : SharedContextData → SharedContextData)
    (s : StoreState SharedContextData) : StoreState SharedContextData :=
  match lookupA session_id s.sessions with
  | some e =>
      let e' : SessionEntry SharedContextData :=
        { data := f e.data,
          metadata := { created_at := e.metadata.created_at, last_used := now } }
      { sessions := insertA session_id e' s.sessions,
        disk := insertA session_id e' s.disk }
  | none =>
      let e : SessionEntry SharedContextData :=
        { data := f default,
          metadata := { created_at := now, last_used := now } }
      { sessions := insertA session_id e s.sessions,
        disk := insertA session_id e s.disk }

/-- `FsTools::default_session_id` of `src/state.rs`. -/
def default_session_id : String := "default"

open Session in
/-- `FsTools::get_context` of `src/state.rs` at wall-clock time `now`:
`get_or_create` the session (defaulting the id) and project out its
`context_path`. -/
def get_context (now : Nat) (session_id : Option String)
    (s : StoreState SharedContextData) :
    Option String × StoreState SharedContextData :=
  let r := getOrCreate now (session_id.getD default_session_id) s
  (r.1.context_path, r.2)

/-- The `NoContextError` message of `src/state.rs`
(`FsTools::resolve_path`, the `None` context arm). -/
def noContextMsg : String :=
  "Use set_working_directory first or provide an absolute path."

/-- `FsTools::resolve_path` of `src/state.rs`, with the session-store
read abstracted as the `getCtx` oracle (the `self.get_context` call;
`Except.error` is an underlying `StorageError`): expand a leading `~`,
return the expanded path unchanged if absolute, otherwise consult the
store for the (defaulted) session's context and join it with the
original path string, failing with `noContextMsg` when no context is
set. -/
def resolve_path (home : String) (getCtx : String → Except String (Option String))
    (path_str : String) (session_id : Option String) : Except String String :=
  let path := tilde home path_str
  if isAbsolutePath path then Except.ok path
  else
    let sid := session_id.getD default_session_id
    match getCtx sid with
    | Except.error e => Except.error e
    | Except.ok (some context) => Except.ok (pathJoin context path_str)
    | Except.ok none => Except.error noContextMsg

open Session in
/-- `FsTools::resolve_path` of `src/state.rs` wired to the actual
shared-context store (the oracle instantiated with `get_context`). -/
def resolve_path_store (home : String) (now : Nat) (path_str : String)
    (session_id : Option String) (s : StoreState SharedContextData) :
    Except String String :=
  resolve_path home (fun sid => Except.ok (get_context now (some sid) s).1)
    path_str session_id

open Session in
/-- `FsTools::set_working_directory` of `src/state.rs` at wall-clock
time `now`: store `path` as the (defaulted) session's context via the
shared store's `update`. -/
def set_working_directory (now : Nat) (path : String) (session_id : Option String)
    (s : StoreState SharedContextData) : StoreState SharedContextData :=
  update now (session_id.getD default_session_id)
    (fun d => { d with context_path := some path }) s

open Session in
/-- `SetWorkingDirectory::execute` of
`src/tools/set_working_directory.rs` at wall-clock time `now`: resolve
the path argument (session defaulted), then persist the resolved path
as the new context, answering `Set context to {path}`. -/
def setWorkingDirectoryExecute (home : String) (now : Nat) (path : String)
    (s : StoreState SharedContextData) :
    Except String String × StoreState SharedContextData :=
  match resolve_path_store home now path none s with
  | Except.error e => (Except.error e, s)
  | Except.ok new_context_path =>
      (Except.ok ("Set context to " ++ new_context_path),
        set_working_directory now new_context_path none s)

/-- The `No context set` message of the legacy resolver in
`src/tools.rs`, which quotes the session id. -/
def legacyNoContextMsg (session_id : String) : String :=
  "No context set for session " ++ squote ++ session_id ++ squote ++
    ". Use set_context first or provide an absolute path."

/-- The legacy `FsTools::resolve_path` of `src/tools.rs` (session id
already defaulted by the callers), with the session-store read
abstracted as the `getCtx` oracle: a path starting with `/` or `C:\`
is returned unchanged; otherwise the session's context is consulted
and joined, failing with `legacyNoContextMsg` when no context is
set. -/
def resolve_path_legacy (getCtx : String → Except String (Option String))
    (path_str : String) (session_id : String) : Except String String :=
  if startsWithStr path_str "/" || startsWithStr path_str "C:\\" then
    Except.ok (path_str)
  else
    match getCtx session_id with
    | Except.error e => Except.error e
    | Except.ok (some context) => Except.ok (pathJoin context path_str)
    | Except.ok none => Except.error (legacyNoContextMsg session_id)

end Shared

namespace Wire

/-- The `serde_json::Value` JSON model (numbers carried as `Int`; no
claim depends on non-integer numbers). -/
inductive Json where
  | null : Json
  | bool (b : Bool) : Json
  | num (n : Int) : Json
  | str (s : String) : Json
  | arr (xs : List Json) : Json
  | obj (fields : List (String × Json)) : Json

/-- Field lookup in a JSON object; `none` on non-objects and missing
fields. -/
def Json.getField (j : Json) (key : String) : Option Json :=
  match j with
  | .obj fields => lookupA key fields
  | _ => none

/-- Decode a JSON value as a `String`. -/
def Json.asStr : Json → Option String
  | .str s => some s
  | _ => none

/-- Decode a JSON value as a `bool`. -/
def Json.asBool : Json → Option Bool
  | .bool b => some b
  | _ => none

/-- Decode a JSON value as a `usize` (a non-negative integer). -/
def Json.asUsize : Json → Option Nat
  | .num n => if n < 0 then none else some n.toNat
  | _ => none

/-- Decode a JSON value as a `Vec<String>`. -/
def Json.asStrList : Json → Option (List String)
  | .arr xs => xs.foldr (fun x acc => do
      let s ← x.asStr
      let rest ← acc
      pure (s :: rest)) (some [])
  | _ => none

/-- serde decoding of an `Option<A>`-typed struct field: a missing
field and an explicit `null` both decode to `none`; a present non-null
value must decode as an `A`. -/
def decodeOptField {A : Type} (j : Json) (key : String) (dec : Json → Option A) :
    Option (Option A) :=
  match j.getField key with
  | none => some none
  | some .null => some none
  | some v => (dec v).map some

/-- serde decoding of a required struct field. -/
def decodeReqField {A : Type} (j : Json) (key : String) (dec : Json → Option A) :
    Option A :=
  (j.getField key).bind dec

/-- The argument struct of the `write` tool (`src/tools/write.rs`). -/
structure WriteArgs where
  path : String
  contents : String
  overwrite : Option Bool
  append : Option Bool
  create_directories : Option Bool

/-- `Write::overwrite` of `src/tools/write.rs` (defaults to
`false`). -/
def WriteArgs.overwriteB (w : WriteArgs) : Bool := w.overwrite.getD false

/-- `Write::append` of `src/tools/write.rs` (defaults to `false`). -/
def WriteArgs.appendB (w : WriteArgs) : Bool := w.append.getD false

/-- `Write::create_directories` of `src/tools/write.rs` (defaults to
`true`). -/
def WriteArgs.createDirectoriesB (w : WriteArgs) : Bool :=
  w.create_directories.getD true

/-- serde decoding of `Write` (`src/tools/write.rs`). -/
def decodeWriteArgs (j : Json) : Option WriteArgs := do
  match j with
  | .obj _ =>
      let path ← decodeReqField j "path" Json.asStr
      let contents ← decodeReqField j "contents" Json.asStr
      let overwrite ← decodeOptField j "overwrite" Json.asBool
      let append ← decodeOptField j "append" Json.asBool
      let create_directories ← decodeOptField j "create_directories" Json.asBool
      pure ⟨path, contents, overwrite, append, create_directories⟩
  | _ => none

/-- The argument struct of the `read` tool (`src/tools/read.rs`). -/
structure ReadArgs where
  paths : List String
  session_id : Option String
  max_length : Option Nat

/-- serde decoding of `Read` (`src/tools/read.rs`). -/
def decodeReadArgs (j : Json) : Option ReadArgs := do
  match j with
  | .obj _ =>
      let paths ← decodeReqField j "paths" Json.asStrList
      let session_id ← decodeOptField j "session_id" Json.asStr
      let max_length ← decodeOptField j "max_length" Json.asUsize
      pure ⟨paths, session_id, max_length⟩
  | _ => none

/-- The argument struct of the `list` tool (`src/tools/list.rs`). -/
structure ListArgs where
  path : String
  session_id : Option String
  gitignore : Option Bool
  recursive : Option Bool
  include_metadata : Option Bool

/-- serde decoding of `List` (`src/tools/list.rs`). -/
def decodeListArgs (j : Json) : Option ListArgs := do
  match j with
  | .obj _ =>
      let path ← decodeReqField j "path" Json.asStr
      let session_id ← decodeOptField j "session_id" Json.asStr
      let gitignore ← decodeOptField j "gitignore" Json.asBool
      let recursive ← decodeOptField j "recursive" Json.asBool
      let include_metadata ← decodeOptField j "include_metadata" Json.asBool
      pure ⟨path, session_id, gitignore, recursive, include_metadata⟩
  | _ => none

/-- The argument struct of the `delete` tool (`src/tools/delete.rs`). -/
structure DeleteArgs where
  path : String
  session_id : Option String

/-- serde decoding of `Delete` (`src/tools/delete.rs`). -/
def decodeDeleteArgs (j : Json) : Option DeleteArgs := do
  match j with
  | .obj _ =>
      let path ← decodeReqField j "path" Json.asStr
      let session_id ← decodeOptField j "session_id" Json.asStr
      pure ⟨path, session_id⟩
  | _ => none

/-- The argument struct of the `move` tool (`src/tools/move.rs`). -/
structure MoveArgs where
  source : String
  destination : String
  session_id : Option String
  overwrite : Option Bool
  create_directories : Option Bool

/-- serde decoding of `Move` (`src/tools/move.rs`). -/
def decodeMoveArgs (j : Json) : Option MoveArgs := do
  match j with
  | .obj _ =>
      let source ← decodeReqField j "source" Json.asStr
      let destination ← decodeReqField j "destination" Json.asStr
      let session_id ← decodeOptField j "session_id" Json.asStr
      let overwrite ← decodeOptField j "overwrite" Json.asBool
      let create_directories ← decodeOptField j "create_directories" Json.asBool
      pure ⟨source, destination, session_id, overwrite, create_directories⟩
  | _ => none

/-- `HighlightStyle` of `src/tools/search.rs`. -/
inductive HighlightStyle where
  | hlNone | hlBox | emphasis | ansi | markdown

/-- serde decoding of `HighlightStyle` (renamed lower-case variant
names). -/
def decodeHighlightStyle (j : Json) : Option HighlightStyle :=
  match j with
  | .str s =>
      if s = "none" then some .hlNone
      else if s = "box" then some .hlBox
      else if s = "emphasis" then some .emphasis
      else if s = "ansi" then some .ansi
      else if s = "markdown" then some .markdown
      else none
  | _ => none

/-- The argument struct of the `search` tool (`src/tools/search.rs`);
`highlight_style` carries `#[serde(default)]` (default `box`). -/
structure SearchArgs where
  pattern : String
  path : Option String
  case_sensitive : Option Bool
  include_extensions : Option (List String)
  max_results : Option Nat
  highlight_style : HighlightStyle
  context_lines : Option Nat

/-- serde decoding of `Search` (`src/tools/search.rs`). -/
def decodeSearchArgs (j : Json) : Option SearchArgs := do
  match j with
  | .obj _ =>
      let pattern ← decodeReqField j "pattern" Json.asStr
      let path ← decodeOptField j "path" Json.asStr
      let case_sensitive ← decodeOptField j "case_sensitive" Json.asBool
      let include_extensions ← decodeOptField j "include_extensions" Json.asStrList
      let max_results ← decodeOptField j "max_results" Json.asUsize
      let highlight_style ←
        match j.getField "highlight_style" with
        | none => some HighlightStyle.hlBox
        | some v => decodeHighlightStyle v
      let context_lines ← decodeOptField j "context_lines" Json.asUsize
      pure ⟨pattern, path, case_sensitive, include_extensions, max_results,
        highlight_style, context_lines⟩
  | _ => none

/-- The argument struct of the `set_working_directory` tool
(`src/tools/set_working_directory.rs`). -/
structure SetWorkingDirectoryArgs where
  path : String

/-- serde decoding of `SetWorkingDirectory`
(`src/tools/set_working_directory.rs`). -/
def decodeSetWorkingDirectoryArgs (j : Json) : Option SetWorkingDirectoryArgs := do
  match j with
  | .obj _ =>
      let path ← decodeReqField j "path" Json.asStr
      pure ⟨path⟩
  | _ => none

/-- Modelled from the spec: the `Tool` enum that `src/main.rs` embeds
in `RequestType::ToolsCall` is not itself under `src/` (only the
argument structs of its variants are).  Per §4.3 it is "a closed,
tagged set of operation variants (list, read, write, delete, move,
search, set-working-directory), each carrying a variant-specific
argument record", keyed by the operation-name string field. -/
inductive Tool where
  | list (args : ListArgs)
  | read (args : ReadArgs)
  | write (args : WriteArgs)
  | delete (args : DeleteArgs)
  | move (args : MoveArgs)
  | search (args : SearchArgs)
  | set_working_directory (args : SetWorkingDirectoryArgs)

/-- The operation names the `Tool` decoder recognizes. -/
def recognizedNames : List String :=
  ["list", "read", "write", "delete", "move", "search", "set_working_directory"]

/-- Modelled from the spec: serde decoding of `Tool` — a tagged union
keyed by the `name` field, its payload decoded from the `arguments`
field by the variant-specific decoder; an unrecognized operation name
fails the decode (per §9, "an explicit table keeps the mapping
auditable and keeps unknown-operation handling a single well-defined
error path"). -/
def decodeTool (j : Json) : Option Tool :=
  match j.getField "name" with
  | some (.str name) =>
      let args := (j.getField "arguments").getD .null
      if name = "list" then (decodeListArgs args).map Tool.list
      else if name = "read" then (decodeReadArgs args).map Tool.read
      else if name = "write" then (decodeWriteArgs args).map Tool.write
      else if name = "delete" then (decodeDeleteArgs args).map Tool.delete
      else if name = "move" then (decodeMoveArgs args).map Tool.move
      else if name = "search" then (decodeSearchArgs args).map Tool.search
      else if name = "set_working_directory" then
        (decodeSetWorkingDirectoryArgs args).map Tool.set_working_directory
      else none
  | _ => none

/-- `InitializeRequest` of `src/main.rs` (camelCase field names on the
wire). -/
structure InitRequest where
  capabilities : Json
  client_name : String
  client_version : String
  protocol_version : String

/-- serde decoding of `InitializeRequest` (`capabilities: Value`,
`clientInfo: Info {name, version}`, `protocolVersion: String`). -/
def decodeInitRequest (j : Json) : Option InitRequest := do
  match j with
  | .obj _ =>
      let capabilities ← j.getField "capabilities"
      let clientInfo ← j.getField "clientInfo"
      let client_name ← decodeReqField clientInfo "name" Json.asStr
      let client_version ← decodeReqField clientInfo "version" Json.asStr
      let protocol_version ← decodeReqField j "protocolVersion" Json.asStr
      pure ⟨capabilities, client_name, client_version, protocol_version⟩
  | _ => none

/-- `RequestType` of `src/main.rs`: the adjacently tagged
(`tag = "method"`, `content = "params"`) request union. -/
inductive RequestType where
  | initReq (args : InitRequest)
  | toolsList (params : Json)
  | toolsCall (tool : Tool)

/-- serde decoding of `RequestType` from the `method` tag and the
`params` content: only `initialize`, `tools/list` and `tools/call` are
recognized methods. -/
def decodeRequestType (method : String) (params : Option Json) : Option RequestType :=
  if method = "initialize" then (params.bind decodeInitRequest).map RequestType.initReq
  else if method = "tools/list" then params.map RequestType.toolsList
  else if method = "tools/call" then (params.bind decodeTool).map RequestType.toolsCall
  else none

/-- `McpRequest` of `src/main.rs`: `jsonrpc`, `id` (any JSON value) and
the flattened `RequestType`. -/
structure McpRequest where
  jsonrpc : String
  id : Json
  call : RequestType

/-- serde decoding of `McpRequest`: `jsonrpc` must be a string, `id`
must be present, and the flattened `RequestType` decodes from the
`method`/`params` fields. -/
def decodeRequest (j : Json) : Option McpRequest :=
  match j.getField "jsonrpc", j.getField "id", j.getField "method" with
  | some (.str ver), some id, some (.str m) =>
      (decodeRequestType m (j.getField "params")).map (fun c => ⟨ver, id, c⟩)
  | _, _, _ => none

/-- `McpNotification` of `src/main.rs`: `jsonrpc` and `method` strings
plus optional `params`. -/
structure McpNotification where
  jsonrpc : String
  method : String
  params : Option Json

/-- serde decoding of `McpNotification` (unknown fields such as a stray
`id` are ignored, as serde does by default). -/
def decodeNotification (j : Json) : Option McpNotification :=
  match j.getField "jsonrpc", j.getField "method" with
  | some (.str ver), some (.str m) =>
      some ⟨ver, m, j.getField "params"⟩
  | _, _ => none

/-- `McpMessage` of `src/main.rs`: the untagged request-or-notification
union. -/
inductive McpMessage where
  | request (r : McpRequest)
  | notification (n : McpNotification)

/-- serde decoding of the untagged `McpMessage`: try `Request` first,
then `Notification` (untagged unions try variants in declaration
order). -/
def decodeMcpMessage (j : Json) : Option McpMessage :=
  match decodeRequest j with
  | some r => some (McpMessage.request r)
  | none =>
      match decodeNotification j with
      | some n => some (McpMessage.notification n)
      | none => none

/-- `McpResponse` of `src/main.rs`: exactly one of `result` and `error`
is populated (`error` carries the numeric code and message of
`McpError`; its `data` field is always `None` in this program). -/
structure McpResponse where
  jsonrpc : String
  id : Json
  result : Option Json
  error : Option (Int × String)

/-- `McpResponse::success` of `src/main.rs`. -/
def McpResponse.success (id : Json) (result : Json) : McpResponse :=
  ⟨"2.0", id, some result, none⟩

/-- `McpResponse::error` of `src/main.rs`. -/
def McpResponse.err (id : Json) (code : Int) (message : String) : McpResponse :=
  ⟨"2.0", id, none, some (code, message)⟩

/-- The serialized form of a `ContentResponse` of `src/main.rs`
(`{type: "text", text}`). -/
def contentJson (text : String) : Json :=
  .obj [("type", .str "text"), ("text", .str text)]

/-- Serialization of `McpResponse` (fields with
`skip_serializing_if = "Option::is_none"` are omitted when `none`). -/
def encodeResponse (r : McpResponse) : Json :=
  .obj ([("jsonrpc", .str r.jsonrpc), ("id", r.id)]
    ++ (match r.result with | some v => [("result", v)] | none => [])
    ++ (match r.error with
        | some (code, message) =>
            [("error", .obj [("code", .num code), ("message", .str message)])]
        | none => []))

/-- Modelled from the spec: the static `initialize` result (server
identity, capabilities and the usage-instruction string of
`INSTRUCTIONS` in `src/main.rs`); static metadata, out of core
scope. -/
def initResultJson : Json :=
  .obj [("protocolVersion", .str "2024-11-05"),
        ("capabilities", .obj [("tools", .obj [])]),
        ("serverInfo", .obj [("name", .str "fs-mcp"), ("version", .str "0.1.0")]),
        ("instructions", .str "Filesystem operations with session support. Use --session-id for persistent context between operations.")]

/-- Modelled from the spec: the static `tools/list` result (the
bundled `schema.json`, which is not under `src/`); static metadata,
out of core scope. -/
def toolsListResultJson : Json := .obj [("tools", .arr [])]

/-- `RequestType::execute`'s `ToolsCall` arm in `src/main.rs` (lines
140–149): a tool result `Ok(string)` becomes a success response
wrapping a `ContentResponse`; an `Err(e)` becomes a wire error with
code `-32601` and the error's message — in both cases echoing the
request id. -/
def dispatchToolResult (id : Json) (r : Except String String) : McpResponse :=
  match r with
  | Except.ok s => McpResponse.success id (contentJson s)
  | Except.error e => McpResponse.err id (-32601) e

/-- `RequestType::execute` of `src/main.rs`, with tool execution (the
filesystem side effects of `Tool::execute`) abstracted as `exec`. -/
def executeRequest (exec : Tool → Except String String) (r : McpRequest) : McpResponse :=
  match r.call with
  | RequestType.initReq _ => McpResponse.success r.id initResultJson
  | RequestType.toolsList _ => McpResponse.success r.id toolsListResultJson
  | RequestType.toolsCall tool => dispatchToolResult r.id (exec tool)

/-- `str::lines` of Rust for LF-terminated text: split on `\n`, a
trailing newline producing no final empty line (so the empty string has
no lines). -/
def linesOf (s : String) : List String :=
  let p := s.splitOn "\n"
  if p.getLast? = some "" then p.dropLast else p

/-- `Write::read_file_tail` of `src/tools/write.rs` over the modelled
file system `fs` (path → contents of existing files): the last `n`
lines of the file, empty for a missing or empty file. -/
def read_file_tail (fs : String → Option String) (path : String) (n : Nat) : String :=
  match fs path with
  | none => ""
  | some content =>
      let file_lines := linesOf content
      if file_lines.isEmpty then ""
      else String.intercalate "\n" (file_lines.drop (file_lines.length - n))

/-- `Write::format_seam_display` of `src/tools/write.rs`. -/
def format_seam_display (tail appended : String) (lines_to_show : Nat) : String :=
  let part1 :=
    if tail ≠ "" then
      "\nContext around append point (last " ++ toString lines_to_show ++
        " lines):\n" ++ tail ++ "\n"
    else ""
  let result := part1 ++ "\n<<< APPENDED >>>\n"
  let appended_lines := linesOf appended
  let k := min lines_to_show appended_lines.length
  if k > 0 then
    result ++ String.intercalate "\n" (appended_lines.take k) ++
      (if appended_lines.length > k then
        "\n... (" ++ toString (appended_lines.length - k) ++ " more lines)"
      else "")
  else result

/-- The `already exists` conflict text of `src/tools/write.rs`
(`Write::execute`, the `ErrorKind::AlreadyExists` arm): a *successful*
result explaining the conflict and suggesting `overwrite`/`append`. -/
def alreadyExistsMsg (path : String) : String :=
  "File " ++ path ++ " already exists, use \"overwrite\": true if you intend to replace it, or \"append\": true if you intend to add content to the end of the file."

/-- The mutual-exclusion text of `src/tools/write.rs`. -/
def mutuallyExclusiveMsg : String :=
  "`overwrite` and `append` are mutually exclusive. No filesystem operation has been performed"

/-- The display of the `AlreadyExists` `io::Error` that
`src/tools/write_file.rs` propagates with `?` (platform text; Linux
shown). -/
def fileExistsOsError : String := "File exists (os error 17)"

/-- The display of the `NotFound` `io::Error` hit when `overwrite`
opens a missing file without `create` (platform text; Linux shown). -/
def noSuchFileOsError : String := "No such file or directory (os error 2)"

/-- `Write::execute` of `src/tools/write.rs` (lines 159–227), over the
abstracted collaborators: `resolve` is `FsTools::resolve_path`
(session defaulted), `sizeFmt` renders `Size::from_bytes` (external
`size` crate), and `fs` is the file system, a map from absolute path to
the contents of existing files (`create_dir_all` is modelled as always
succeeding).  Returns the tool result together with the file system
after the call:

* a resolve failure is reported as `Failed to resolve {path}` (anyhow
  context display);
* `overwrite` and `append` together short-circuit to a successful
  mutual-exclusion message with no filesystem effect;
* `append` opens with `create(true).append(true)`, appending to the
  existing contents (creating the file if missing) and attaching the
  seam display;
* `overwrite` opens with `write(true).truncate(true)` — no `create` —
  so a missing file fails to open;
* otherwise the open uses `create_new(true)`, and an existing file
  yields the *successful* `alreadyExistsMsg` with no filesystem
  effect. -/
def writeExecute (resolve : String → Except String String) (sizeFmt : Nat → String)
    (fs : String → Option String) (w : WriteArgs) :
    Except String String × (String → Option String) :=
  match resolve w.path with
  | Except.error _ => (Except.error ("Failed to resolve " ++ w.path), fs)
  | Except.ok path =>
      if w.appendB && w.overwriteB then (Except.ok mutuallyExclusiveMsg, fs)
      else if w.appendB then
        let tail_content := read_file_tail fs path 3
        let new_contents := ((fs path).getD "") ++ w.contents
        let fs' := fun p => if p = path then some new_contents else fs p
        let base := "Successfully wrote " ++ toString w.contents.utf8ByteSize ++
          " bytes to " ++ path ++ " (total: " ++
          sizeFmt new_contents.utf8ByteSize ++ ")"
        (Except.ok
          (if tail_content ≠ "" || w.contents ≠ "" then
            base ++ format_seam_display tail_content w.contents 3
          else base), fs')
      else if w.overwriteB then
        match fs path with
        | none =>
            (Except.error ("Failed to open " ++ path ++ " for writing: " ++
              noSuchFileOsError), fs)
        | some _ =>
            let fs' := fun p => if p = path then some w.contents else fs p
            (Except.ok ("Successfully wrote " ++ toString w.contents.utf8ByteSize ++
              " bytes to " ++ path ++ " (total: " ++
              sizeFmt w.contents.utf8ByteSize ++ ")"), fs')
      else
        match fs path with
        | some _ => (Except.ok (alreadyExistsMsg path), fs)
        | none =>
            let fs' := fun p => if p = path then some w.contents else fs p
            (Except.ok ("Successfully wrote " ++ toString w.contents.utf8ByteSize ++
              " bytes to " ++ path ++ " (total: " ++
              sizeFmt w.contents.utf8ByteSize ++ ")"), fs')

/-- The argument struct of the legacy `write_file` tool
(`src/tools/write_file.rs`). -/
structure WriteFileArgs where
  path : String
  session_id : Option String
  contents : String
  overwrite : Option Bool
  create_directories : Option Bool

/-- `WriteFile::overwrite` of `src/tools/write_file.rs` (defaults to
`false`). -/
def WriteFileArgs.overwriteB (w : WriteFileArgs) : Bool := w.overwrite.getD false

/-- `WriteFile::execute` of `src/tools/write_file.rs` (lines 69–93),
over the same abstracted collaborators as `writeExecute`.  Unlike the
`write` tool, an existing target without `overwrite` propagates the
`create_new` open failure as an error (`?`), which the dispatcher then
turns into a wire-level error. -/
def writeFileExecute (resolve : String → Except String String)
    (fs : String → Option String) (w : WriteFileArgs) :
    Except String String × (String → Option String) :=
  match resolve w.path with
  | Except.error e => (Except.error e, fs)
  | Except.ok path =>
      if w.overwriteB then
        let fs' := fun p => if p = path then some w.contents else fs p
        (Except.ok ("Successfully wrote " ++ toString w.contents.utf8ByteSize ++
          " bytes to " ++ path), fs')
      else
        match fs path with
        | some _ => (Except.error fileExistsOsError, fs)
        | none =>
            let fs' := fun p => if p = path then some w.contents else fs p
            (Except.ok ("Successfully wrote " ++ toString w.contents.utf8ByteSize ++
              " bytes to " ++ path), fs')

/-- The inline error block `Read::execute` of `src/tools/read.rs`
substitutes for a failed path: delimited by the per-call random
`separator` and naming the original path argument. -/
def readErrorBlock (separator path e : String) : String :=
  "==" ++ separator ++ " BEGIN ERROR " ++ path ++ " " ++ separator ++ "==\n" ++
    e ++ "\n==" ++ separator ++ " END ERROR " ++ path ++ " " ++ separator ++ "=="

/-- The contribution of one path to the output of `Read::execute`: the
text `read_file` produced, or the inline error block on failure. -/
def renderReadOne (read_file : String → Except String String)
    (separator path : String) : String :=
  match read_file path with
  | Except.ok s => s
  | Except.error e => readErrorBlock separator path e

/-- `Read::execute` of `src/tools/read.rs` (lines 110–126), with
`Read::read_file` abstracted as the `read_file` collaborator (it
performs the path resolution and file I/O) and the random 10-character
alphanumeric separator (`fastrand`) passed in as `separator`: map
`read_file` over the paths, substituting the inline error block via
`unwrap_or_else` for any failure, and concatenate — the whole call
always returns `Ok`. -/
def readExecute (read_file : String → Except String String) (separator : String)
    (r : ReadArgs) : Except String String :=
  Except.ok (String.join (r.paths.map (fun path =>
    match read_file path with
    | Except.ok s => s
    | Except.error e => readErrorBlock separator path e)))

/-- One line of input to the transport loop: either not valid JSON at
all (the external `serde_json` text parser fails) or a parsed JSON
value. -/
inductive InputLine where
  | garbage (raw : String)
  | json (j : Json)

/-- The text-parsing step of `serde_json::from_str` (external to the
repository): garbage fails, a JSON line yields its value. -/
def parseLine : InputLine → Option Json
  | .garbage _ => none
  | .json j => some j

/-- The body of the transport loop of `src/main.rs` (lines 216–234) for
one input line: the line is answered with exactly one encoded response
when it parses and decodes as `McpMessage::Request`, and with no output
at all otherwise (`if let Ok(McpMessage::Request(request))`). -/
def processLine (exec : Tool → Except String String) (l : InputLine) : List Json :=
  match parseLine l with
  | none => []
  | some j =>
      match decodeMcpMessage j with
      | some (McpMessage.request r) => [encodeResponse (executeRequest exec r)]
      | _ => []

/-- The transport loop of `src/main.rs` over a whole input stream
(lines until EOF): the concatenation of the per-line outputs, in input
order. -/
def processLines (exec : Tool → Except String String) : List InputLine → List Json
  | [] => []
  | l :: rest => processLine exec l ++ processLines exec rest

end Wire

/-! ## Claim theorems -/

/-- The concrete operation trace used by the refutation of C2: two
`set` mutations on two distinct session ids. -/
def c2ExOps : List (Session.StoreOp Shared.SharedContextData) :=
  [Session.StoreOp.set 0 "a" ⟨some "/x"⟩, Session.StoreOp.set 1 "b" ⟨some "/y"⟩]

/-- C2 is refuted on the code: `save_session_to_disk` writes one file
per session id, so after mutating two distinct sessions the on-disk
state is two files (each holding a single `SessionEntry`), not a single
file with the whole mapping. -/
theorem c2_counterexample :
    (Session.runOps c2ExOps (Session.newStore [])).disk.length = 2
    ∧ ¬ (Session.runOps c2ExOps (Session.newStore [])).disk.length = 1 := by
  constructor
  · rfl
  · decide

/-- C2 (amended): after every sequence of mutating operations
(`get_or_create` and `set`), the on-disk state — one file
`{session_id}.json` per session id, each a complete serialization of
that session's `{data, created_at, last_used}` entry — coincides
exactly with the in-memory mapping; the touched session's file is
rewritten in full on every mutation, with no partial or append log. -/
theorem c2_per_session_disk_mirror {T : Type} [Inhabited T]
    (ops : List (Session.StoreOp T)) (d : List (String × Session.SessionEntry T)) :
    (Session.runOps ops (Session.newStore d)).disk
      = (Session.runOps ops (Session.newStore d)).sessions :=
  Session.disk_eq_sessions ops _ rfl

/-- C6: along any trace of `get_or_create`/`set` operations under a
monotone wall clock, every reachable session entry satisfies
`created_at ≤ last_used`; `get_or_create` refreshes the entry's
`last_used` to the current time on every read-or-create access; and a
freshly created entry has `created_at = last_used = now`. -/
theorem c6_timestamp_invariant {T : Type} [Inhabited T]
    (ops : List (Session.StoreOp T)) (h : Session.Chrono 0 ops) :
    (∀ id e, lookupA id (Session.runOps ops (Session.newStore [])).sessions = some e →
      e.metadata.created_at ≤ e.metadata.last_used)
    ∧ (∀ (now : Nat) (sid : String) (s : Session.StoreState T),
        ∃ e, lookupA sid ((Session.getOrCreate now sid s).2).sessions = some e
          ∧ e.metadata.last_used = now)
    ∧ (∀ (now : Nat) (sid : String) (s : Session.StoreState T),
        lookupA sid s.sessions = none →
        ∃ e, lookupA sid ((Session.getOrCreate now sid s).2).sessions = some e
          ∧ e.metadata.created_at = now ∧ e.metadata.last_used = now) := by
  refine ⟨?_, ?_, ?_⟩
  · intro id e he
    have hempty :
        Session.BoundedBy (Session.newStore ([] : List (String × Session.SessionEntry T))) 0 := by
      intro id' e' he'
      simp [Session.newStore, lookupA] at he'
    rcases Session.boundedBy_runOps hempty h with ⟨t', hb⟩
    exact (hb id e he).1
  · intro now sid s
    rcases hl : lookupA sid s.sessions with _ | entry
    · exact ⟨⟨default, ⟨now, now⟩⟩,
        by simp [Session.getOrCreate, hl, lookupA_insertA_self], rfl⟩
    · exact ⟨⟨entry.data, ⟨entry.metadata.created_at, now⟩⟩,
        by simp [Session.getOrCreate, hl, lookupA_insertA_self], rfl⟩
  · intro now sid s hl
    exact ⟨⟨default, ⟨now, now⟩⟩,
      by simp [Session.getOrCreate, hl, lookupA_insertA_self], rfl, rfl⟩

/-- The concrete operation trace used to witness C6. -/
def c6ExOps : List (Session.StoreOp Shared.SharedContextData) :=
  [Session.StoreOp.getOrCreate 1 "a",
   Session.StoreOp.set 2 "a" ⟨some "/w"⟩,
   Session.StoreOp.getOrCreate 5 "a"]

/-- The entry for session `a` after running `c6ExOps` from an empty
store: created at 1, last used at 5. -/
def c6ExEntry : Session.SessionEntry Shared.SharedContextData :=
  ⟨⟨some "/w"⟩, ⟨1, 5⟩⟩

theorem c6_timestamp_invariant_witness :
    lookupA "a" (Session.runOps c6ExOps (Session.newStore [])).sessions = some c6ExEntry
    ∧ c6ExEntry.metadata.created_at ≤ c6ExEntry.metadata.last_used := by
  refine ⟨by decide, ?_⟩
  exact (c6_timestamp_invariant c6ExOps
    (by exact ⟨by decide, by decide, by decide, trivial⟩)).1 "a" c6ExEntry (by decide)

/-- C7: round-trip — run any sequence of mutations from an empty store,
then construct a fresh store from the resulting on-disk state; for
every session id present, `get_or_create` on the fresh store returns
exactly the payload the original store last held for that id. -/
theorem c7_roundtrip {T : Type} [Inhabited T]
    (ops : List (Session.StoreOp T)) (id : String) (e : Session.SessionEntry T)
    (now : Nat)
    (h : lookupA id (Session.runOps ops (Session.newStore [])).sessions = some e) :
    (Session.getOrCreate now id
      (Session.newStore (Session.runOps ops (Session.newStore [])).disk)).1 = e.data := by
  have hd := Session.disk_eq_sessions (T := T) ops (Session.newStore []) rfl
  simp only [Session.newStore] at hd h ⊢
  simp [Session.getOrCreate, hd, h]

/-- The concrete operation trace used to witness C7: three `set`
mutations across two distinct session ids. -/
def c7ExOps : List (Session.StoreOp Shared.SharedContextData) :=
  [Session.StoreOp.set 0 "a" ⟨some "/x"⟩,
   Session.StoreOp.set 1 "b" ⟨some "/z"⟩,
   Session.StoreOp.set 2 "a" ⟨some "/y"⟩]

theorem c7_roundtrip_witness :
    (Session.getOrCreate 9 "a"
      (Session.newStore (Session.runOps c7ExOps (Session.newStore [])).disk)).1
      = Shared.SharedContextData.mk (some "/y") := by
  exact c7_roundtrip c7ExOps "a" ⟨⟨some "/y"⟩, ⟨0, 2⟩⟩ 9 (by decide)

/-- C3: for every path string that is absolute after tilde expansion,
`resolve_path` returns the expanded path unchanged, for *every*
session-store oracle — in particular for a store that errors on any
access, so no session-store access of any kind is performed. -/
theorem c3_absolute_no_store_access (home : String)
    (getCtx : String → Except String (Option String)) (path_str : String)
    (session_id : Option String)
    (h : isAbsolutePath (tilde home path_str) = true) :
    Shared.resolve_path home getCtx path_str session_id
      = Except.ok (tilde home path_str) := by
  simp [Shared.resolve_path, h]

theorem c3_absolute_no_store_access_witness :
    Shared.resolve_path "/home/user" (fun _ => Except.error "store accessed")
        "~/notes.txt" (some "alpha")
      = Except.ok "/home/user/notes.txt" := by
  have h := c3_absolute_no_store_access "/home/user"
    (fun _ => Except.error "store accessed") "~/notes.txt" (some "alpha") (by decide)
  rw [h]
  rfl

/-- C4 is refuted on the code: resolving a relative path with no
context set fails with the fixed message of `src/state.rs`, which
instructs the caller to set a working directory first or provide an
absolute path but does *not* name the session id (here `alpha`). -/
theorem c4_counterexample :
    Shared.resolve_path "/home/user" (fun _ => Except.ok none) "notes.txt" (some "alpha")
      = Except.error Shared.noContextMsg
    ∧ containsStr Shared.noContextMsg "alpha" = false := by
  exact ⟨rfl, by decide⟩

/-- C4 (amended): resolving a relative path for a session with no
context set fails with a context error instructing the caller to set a
working directory first or supply an absolute path; the current
resolver (`src/state.rs`) answers the fixed `noContextMsg`, which does
not name the session id, while the legacy resolver (`src/tools.rs`)
answers `legacyNoContextMsg session_id`, which quotes the session id
in the message. -/
theorem c4_no_context_error (home path_str : String) (session_id : Option String)
    (sidL : String) (getCtx getCtxL : String → Except String (Option String))
    (h1 : isAbsolutePath (tilde home path_str) = false)
    (h2 : getCtx (session_id.getD Shared.default_session_id) = Except.ok none)
    (h3 : (startsWithStr path_str "/" || startsWithStr path_str "C:\\") = false)
    (h4 : getCtxL sidL = Except.ok none) :
    Shared.resolve_path home getCtx path_str session_id
      = Except.error Shared.noContextMsg
    ∧ Shared.resolve_path_legacy getCtxL path_str sidL
      = Except.error (Shared.legacyNoContextMsg sidL)
    ∧ containsStr (Shared.legacyNoContextMsg sidL) sidL = true := by
  refine ⟨?_, ?_, ?_⟩
  · simp [Shared.resolve_path, h1, h2]
  · simp [Shared.resolve_path_legacy, h3, h4]
  · unfold Shared.legacyNoContextMsg
    rw [String.append_assoc, String.append_assoc]
    exact containsStr_mid _ _ _

theorem c4_no_context_error_witness :
    Shared.resolve_path "/home/user" (fun _ => Except.ok none) "notes.txt" (some "beta")
      = Except.error Shared.noContextMsg
    ∧ Shared.resolve_path_legacy (fun _ => Except.ok none) "notes.txt" "beta"
      = Except.error (Shared.legacyNoContextMsg "beta")
    ∧ containsStr (Shared.legacyNoContextMsg "beta") "beta" = true := by
  exact c4_no_context_error "/home/user" "notes.txt" (some "beta") "beta"
    (fun _ => Except.ok none) (fun _ => Except.ok none)
    (by decide) rfl (by decide) rfl

/-- C5: once the working directory of a session has been set to an
absolute path `ctx` — either through the state-layer
`set_working_directory` for an arbitrary session id, or through the
`set_working_directory` tool (default session) whose path argument
expands to `ctx` — resolving a relative path `q` for that session
joins the stored context with `q` (`/a/b` and `c/d` give
`/a/b/c/d`). -/
theorem c5_relative_resolution_after_set (home p ctx q : String)
    (session_id : Option String) (now now2 : Nat)
    (s : Session.StoreState Shared.SharedContextData)
    (hp : tilde home p = ctx)
    (hctx : isAbsolutePath ctx = true)
    (hq : isAbsolutePath (tilde home q) = false) :
    Shared.resolve_path_store home now2 q session_id
        (Shared.set_working_directory now ctx session_id s)
      = Except.ok (pathJoin ctx q)
    ∧ (Shared.setWorkingDirectoryExecute home now p s).1
      = Except.ok ("Set context to " ++ ctx)
    ∧ Shared.resolve_path_store home now2 q none
        (Shared.setWorkingDirectoryExecute home now p s).2
      = Except.ok (pathJoin ctx q) := by
  have key : ∀ sid : Option String,
      Shared.resolve_path_store home now2 q sid
          (Shared.set_working_directory now ctx sid s)
        = Except.ok (pathJoin ctx q) := by
    intro sid
    unfold Shared.resolve_path_store Shared.resolve_path Shared.set_working_directory
      Shared.update Shared.get_context
    rcases hl : lookupA (sid.getD Shared.default_session_id) s.sessions with _ | entry
    · simp [hq, hl, Session.getOrCreate, lookupA_insertA_self]
    · simp [hq, hl, Session.getOrCreate, lookupA_insertA_self]
  have hexec : Shared.setWorkingDirectoryExecute home now p s
      = (Except.ok ("Set context to " ++ ctx),
          Shared.set_working_directory now ctx none s) := by
    unfold Shared.setWorkingDirectoryExecute
    rw [show Shared.resolve_path_store home now p none s = Except.ok ctx by
      unfold Shared.resolve_path_store Shared.resolve_path
      simp [hp, hctx]]
  exact ⟨key session_id, by rw [hexec], by rw [hexec]; exact key none⟩

theorem c5_relative_resolution_after_set_witness :
    Shared.resolve_path_store "/home/user" 3 "c/d" none
        (Shared.set_working_directory 2 "/a/b" none (Session.newStore []))
      = Except.ok "/a/b/c/d"
    ∧ (Shared.setWorkingDirectoryExecute "/home/user" 2 "/a/b" (Session.newStore [])).1
      = Except.ok "Set context to /a/b" := by
  have h := c5_relative_resolution_after_set "/home/user" "/a/b" "/a/b" "c/d" none 2 3
    (Session.newStore []) (by decide) (by decide) (by decide)
  exact ⟨by rw [h.1]; rfl, by rw [h.2.1]; rfl⟩

/-- A `tools/call` request line whose operation name (`bogus_tool`) is
not a recognized tool, with request id `7`. -/
def c1BadJson : Wire.Json :=
  Wire.Json.obj
    [("jsonrpc", Wire.Json.str "2.0"), ("id", Wire.Json.num 7),
     ("method", Wire.Json.str "tools/call"),
     ("params", Wire.Json.obj
        [("name", Wire.Json.str "bogus_tool"), ("arguments", Wire.Json.obj [])])]

/-- A tool executor whose behavior is irrelevant to the line under
scrutiny (the lines involved never reach execution). -/
def execUnused : Wire.Tool → Except String String := fun _ => Except.ok ""

/-- C1 is refuted on the code: for a `tools/call` request with the
unrecognized operation name `bogus_tool` and id `7`, the transport loop
emits *no* response line at all — the request fails to decode as
`McpMessage::Request` (falling back to the `Notification` variant of
the untagged union), so no `MethodNotFoundError` carrying id `7` is
ever produced. -/
theorem c1_counterexample :
    Wire.processLine execUnused (Wire.InputLine.json c1BadJson) = []
    ∧ Wire.decodeRequest c1BadJson = none := by
  exact ⟨rfl, rfl⟩

/-- C1 (amended): for every request line whose method is `tools/call`
but whose operation name is not one of the recognized operation
variants, the request fails to decode as a request, the transport loop
emits no response line at all for it (in particular no wire-level
error), does not crash, and processes the remaining lines exactly as it
would without this line. -/
theorem c1_unknown_tool_no_response (exec : Wire.Tool → Except String String)
    (j p : Wire.Json) (nm : String) (rest : List Wire.InputLine)
    (hm : j.getField "method" = some (Wire.Json.str "tools/call"))
    (hp : j.getField "params" = some p)
    (hn : p.getField "name" = some (Wire.Json.str nm))
    (hnm : nm ∉ Wire.recognizedNames) :
    Wire.decodeRequest j = none
    ∧ Wire.processLine exec (Wire.InputLine.json j) = []
    ∧ Wire.processLines exec (Wire.InputLine.json j :: rest)
        = Wire.processLines exec rest := by
  simp only [Wire.recognizedNames, List.mem_cons, List.not_mem_nil, or_false,
    not_or] at hnm
  obtain ⟨h1, h2, h3, h4, h5, h6, h7⟩ := hnm
  have htool : Wire.decodeTool p = none := by
    simp [Wire.decodeTool, hn, h1, h2, h3, h4, h5, h6, h7]
  have hreq : Wire.decodeRequest j = none := by
    unfold Wire.decodeRequest
    rcases hv : j.getField "jsonrpc" with _ | v
    · simp
    · rcases hid : j.getField "id" with _ | idv
      · cases v <;> simp
      · cases v <;> simp [hm, Wire.decodeRequestType, hp, htool]
  have hline : Wire.processLine exec (Wire.InputLine.json j) = [] := by
    cases hnot : Wire.decodeNotification j <;>
      simp [Wire.processLine, Wire.parseLine, Wire.decodeMcpMessage, hreq, hnot]
  exact ⟨hreq, hline, by simp [Wire.processLines, hline]⟩

/-- A second unrecognized-operation request line (name `frobnicate`,
id `12`), used to witness the amended C1 theorem. -/
def c1WitnessJson : Wire.Json :=
  Wire.Json.obj
    [("jsonrpc", Wire.Json.str "2.0"), ("id", Wire.Json.num 12),
     ("method", Wire.Json.str "tools/call"),
     ("params", Wire.Json.obj
        [("name", Wire.Json.str "frobnicate"), ("arguments", Wire.Json.obj [])])]

theorem c1_unknown_tool_no_response_witness :
    Wire.decodeRequest c1WitnessJson = none
    ∧ Wire.processLine execUnused (Wire.InputLine.json c1WitnessJson) = []
    ∧ Wire.processLines execUnused [Wire.InputLine.json c1WitnessJson] = [] := by
  have h := c1_unknown_tool_no_response execUnused c1WitnessJson
    (Wire.Json.obj [("name", Wire.Json.str "frobnicate"),
      ("arguments", Wire.Json.obj [])])
    "frobnicate" [] rfl rfl rfl (by decide)
  exact ⟨h.1, h.2.1, by rw [h.2.2]; rfl⟩

/-- C8: every input line that does not decode as a well-formed request
— whether it is not valid JSON at all, or JSON that does not decode as
`McpMessage::Request` — produces no output line, does not terminate or
crash the loop, and leaves the processing of the remaining lines
unchanged. -/
theorem c8_undecodable_line_dropped (exec : Wire.Tool → Except String String)
    (l : Wire.InputLine) (rest : List Wire.InputLine)
    (h : (Wire.parseLine l).bind Wire.decodeRequest = none) :
    Wire.processLine exec l = []
    ∧ Wire.processLines exec (l :: rest) = Wire.processLines exec rest := by
  have h1 : Wire.processLine exec l = [] := by
    cases l with
    | garbage raw => rfl
    | json j =>
        have hreq : Wire.decodeRequest j = none := by
          simpa [Wire.parseLine] using h
        cases hnot : Wire.decodeNotification j <;>
          simp [Wire.processLine, Wire.parseLine, Wire.decodeMcpMessage, hreq, hnot]
  exact ⟨h1, by simp [Wire.processLines, h1]⟩

theorem c8_undecodable_line_dropped_witness :
    Wire.processLine execUnused (Wire.InputLine.garbage "this is not json") = []
    ∧ Wire.processLines execUnused [Wire.InputLine.garbage "this is not json"] = [] := by
  have h := c8_undecodable_line_dropped execUnused
    (Wire.InputLine.garbage "this is not json") [] rfl
  exact ⟨h.1, by rw [h.2]; rfl⟩

/-- The modelled file system used by the refutation of C9: exactly one
existing file. -/
def c9ExFs : String → Option String :=
  fun p => if p = "/existing.txt" then some "old contents" else none

/-- The `write_file` arguments used by the refutation of C9: an
existing target, with neither `overwrite` nor any append option (the
legacy tool has none). -/
def c9ExArgs : Wire.WriteFileArgs :=
  ⟨"/existing.txt", none, "new contents", none, none⟩

/-- C9 is refuted on the code as a statement about *every* write
operation: the legacy `write_file` tool (`src/tools/write_file.rs`)
propagates the `create_new` open failure on an existing target as an
error, which the dispatcher (`src/main.rs`) turns into a wire-level
error object (code `-32601`) rather than a successful result. -/
theorem c9_counterexample :
    (Wire.dispatchToolResult (Wire.Json.num 3)
        (Wire.writeFileExecute (fun q => Except.ok q) c9ExFs c9ExArgs).1).error
      = some (-32601, Wire.fileExistsOsError)
    ∧ (Wire.dispatchToolResult (Wire.Json.num 3)
        (Wire.writeFileExecute (fun q => Except.ok q) c9ExFs c9ExArgs).1).result
      = none := by
  exact ⟨rfl, rfl⟩

/-- C9 (amended): for the current `write` tool
(`src/tools/write.rs`), a write targeting an existing path with
neither `overwrite` nor `append` requested makes the dispatcher return
a successful (non-error) wire response whose text is the conflict
message — which mentions both `overwrite` and `append` — and the file
system is left untouched; the legacy `write_file` tool instead
propagates the failure as a wire-level error (see the
counterexample). -/
theorem c9_write_conflict_is_success (id : Wire.Json)
    (resolve : String → Except String String) (sizeFmt : Nat → String)
    (fs : String → Option String) (w : Wire.WriteArgs) (path c : String)
    (hres : resolve w.path = Except.ok path)
    (hfs : fs path = some c)
    (hov : w.overwriteB = false) (hap : w.appendB = false) :
    (Wire.dispatchToolResult id (Wire.writeExecute resolve sizeFmt fs w).1).error = none
    ∧ (Wire.dispatchToolResult id (Wire.writeExecute resolve sizeFmt fs w).1).result
        = some (Wire.contentJson (Wire.alreadyExistsMsg path))
    ∧ (Wire.writeExecute resolve sizeFmt fs w).2 = fs
    ∧ containsStr (Wire.alreadyExistsMsg path) "overwrite" = true
    ∧ containsStr (Wire.alreadyExistsMsg path) "append" = true := by
  have hexec : Wire.writeExecute resolve sizeFmt fs w
      = (Except.ok (Wire.alreadyExistsMsg path), fs) := by
    unfold Wire.writeExecute
    rw [hres]
    simp [hov, hap, hfs]
  refine ⟨?_, ?_, ?_, ?_, ?_⟩
  · rw [hexec]; rfl
  · rw [hexec]; rfl
  · rw [hexec]
  · unfold Wire.alreadyExistsMsg
    exact containsStr_append_right _ _ _ (by decide)
  · unfold Wire.alreadyExistsMsg
    exact containsStr_append_right _ _ _ (by decide)

theorem c9_write_conflict_is_success_witness :
    (Wire.dispatchToolResult (Wire.Json.num 4)
        (Wire.writeExecute (fun q => Except.ok q) (fun _ => "0 B") c9ExFs
          ⟨"/existing.txt", "new contents", none, none, none⟩).1).error = none
    ∧ (Wire.dispatchToolResult (Wire.Json.num 4)
        (Wire.writeExecute (fun q => Except.ok q) (fun _ => "0 B") c9ExFs
          ⟨"/existing.txt", "new contents", none, none, none⟩).1).result
      = some (Wire.contentJson (Wire.alreadyExistsMsg "/existing.txt")) := by
  have h := c9_write_conflict_is_success (Wire.Json.num 4) (fun q => Except.ok q)
    (fun _ => "0 B") c9ExFs ⟨"/existing.txt", "new contents", none, none, none⟩
    "/existing.txt" "old contents" rfl rfl rfl rfl
  exact ⟨h.1, h.2.1⟩

/-- C10: `Read::execute` always returns a success (`Ok`) result for
every list of paths — the output is the concatenation, over all the
requested paths in order, of each path's rendering, and any path whose
`read_file` (resolution or I/O) fails contributes the inline error
block delimited by the random separator instead of aborting the call;
the remaining paths are still rendered from their own `read_file`
results. -/
theorem c10_read_inlines_errors (read_file : String → Except String String)
    (separator : String) (args : Wire.ReadArgs) (p e : String)
    (_hp : p ∈ args.paths) (he : read_file p = Except.error e) :
    Wire.readExecute read_file separator args
      = Except.ok (String.join
          (args.paths.map (Wire.renderReadOne read_file separator)))
    ∧ Wire.renderReadOne read_file separator p
      = Wire.readErrorBlock separator p e := by
  constructor
  · unfold Wire.readExecute
    have hfun : (fun path =>
        match read_file path with
        | Except.ok s => s
        | Except.error err => Wire.readErrorBlock separator path err)
        = Wire.renderReadOne read_file separator := by
      funext q
      cases hq : read_file q <;> simp [Wire.renderReadOne, hq]
    rw [hfun]
  · simp [Wire.renderReadOne, he]

/-- The abstract `read_file` collaborator used to witness C10: one
failing path among the requested ones. -/
def c10ExReader : String → Except String String :=
  fun q =>
    if q = "missing.txt" then Except.error "missing.txt does not exist"
    else Except.ok ("contents of " ++ q)

theorem c10_read_inlines_errors_witness :
    Wire.readExecute c10ExReader "SEP" ⟨["ok.txt", "missing.txt"], none, none⟩
      = Except.ok (String.join
          (["ok.txt", "missing.txt"].map (Wire.renderReadOne c10ExReader "SEP")))
    ∧ Wire.renderReadOne c10ExReader "SEP" "missing.txt"
      = Wire.readErrorBlock "SEP" "missing.txt" "missing.txt does not exist" := by
  exact c10_read_inlines_errors c10ExReader "SEP"
    ⟨["ok.txt", "missing.txt"], none, none⟩ "missing.txt"
    "missing.txt does not exist" (by decide) rfl

end FsMcp
